import Mathlib

/-!
# CodeRealm dispatch client (cmd/client/main.go)

A shallow embedding of the request pipeline of `cmd/client/main.go`:
`processMessages`, `executeAndStore`, `InsertSubmissionsAndUpdateCodeQue` and
`UpdateCodeQue`.

The external collaborators (MongoDB collections, the Redis cache, the gRPC
execution engine, `encoding/json`, the clock and the repository function
`GenerateCode`, which lives outside this file) are modelled as follows.

* The two MongoDB collections and the Redis key space are explicit data in a
  `World`; every call made to a collaborator is appended to `World.trace`.
* Whether a call to a collaborator fails, and what the engine, the JSON
  decoder and `GenerateCode` return, is read from an `Env` record, so every
  theorem quantified over `Env` holds for every outcome of the collaborators.
* A Go panic is an explicit `Outcome.panicked`.
-/

namespace CodeRealm

/-! ## Data model -/

/-- Go `error` values. `lib` is an error produced by a library or a remote
collaborator (driver, transport, decoder); `new` is a value built by
`errors.New` inside this program. -/
inductive Err where
  | lib (msg : String)
  | new (msg : String)
deriving DecidableEq, Repr

/-- `CodeExecutionRequest` (main.go:25-32). -/
structure CodeExecutionRequest where
  Language : String
  Code : String
  PID : String
  ReqType : String
  QueID : String
  Email : String
deriving DecidableEq, Repr

/-- `primitive.ObjectID`: twelve bytes. -/
abbrev ObjectID := List Nat

/-- `time.Duration`, in nanoseconds. -/
abbrev Duration := Nat

/-- `time.Second`. -/
def Second : Duration := 1000000000

/-- `time.Minute`. -/
def Minute : Duration := 60 * Second

/-- `models.CodeSubmission`, with the fields of the literal at main.go:154-164. -/
structure CodeSubmission where
  PID : String
  QueID : ObjectID
  Email : String
  Language : String
  Code : String
  Output : String
  SubmittedAT : Nat
  Runtime : String
  Memory : String
deriving DecidableEq, Repr

/-- A document of `db.CodeQueCollection`, restricted to the fields this file
reads or writes: `_id`, `problemId`, `templates.<language>`,
`submissions.correct` and `submissions.wrong`. -/
structure CodeQueDoc where
  ID : ObjectID
  problemId : String
  templates : List (String × String)
  correct : Int
  wrong : Int
deriving DecidableEq, Repr

/-- Modelled from the spec: `models.CodeQue` is declared outside this file; the
spec calls it the per-language code scaffold of a problem. It is the value
`FindOne(...).Decode` fills under the projection `templates.<language>`. -/
structure CodeQue where
  Templates : List (String × String)
deriving DecidableEq, Repr

/-- The dynamic value held by a Go `interface{}` after JSON decoding. Only the
dynamic type `bool` is inspected by the program. -/
inductive Dyn where
  | nil
  | bool (b : Bool)
  | other (goType : String)
deriving DecidableEq, Repr

/-- A Go `map[string]interface{}`; `none` is the nil map. -/
abbrev JsonMap := Option (List (String × Dyn))

/-- Go map indexing `data[key]`: the zero value (nil interface) for a nil map
or a missing key. -/
def mapIndex (data : JsonMap) (key : String) : Dyn :=
  match data with
  | none => Dyn.nil
  | some m => (m.lookup key).getD Dyn.nil

/-- One entry of the Redis key space: key, value and the time-to-live it was
written with. -/
structure CacheEntry where
  key : String
  value : String
  ttl : Duration
deriving DecidableEq, Repr

/-- Calls made to collaborators, and lines written to the log. -/
inductive Event where
  | findOne (problemId : String) (projection : String)
  | generateCode (language : String) (code : String)
  | executeCode (language : String) (code : String)
  | jsonUnmarshal (input : String)
  | insertOne (doc : CodeSubmission)
  | updateByID (id : ObjectID) (field : String)
  | redisSet (key : String) (value : String) (ttl : Duration)
  | logPrintf (format : String) (err : Err)
  | println (text : String)
deriving DecidableEq, Repr

/-- The stores the program talks to, and the trace of what it did. -/
structure World where
  SubmissionCollection : List CodeSubmission
  CodeQueCollection : List CodeQueDoc
  redis : List CacheEntry
  trace : List Event
deriving DecidableEq, Repr

/-- Outcomes of the collaborators during one call. -/
structure Env where
  /-- transport or decoding failure of `FindOne(problemId, projection)` -/
  findOneErr : String → String → Option Err
  /-- `GenerateCode(language, code, CodeQue)`: returned code and error -/
  GenerateCode : String → String → CodeQue → String × Option Err
  /-- `client.ExecuteCode(language, code)`: the output, or the RPC error -/
  ExecuteCode : String → String → Except Err String
  /-- `json.Unmarshal(output, &data)`: the map left in `data`, and the error -/
  jsonUnmarshal : String → JsonMap × Option Err
  /-- failure of `SubmissionCollection.InsertOne(doc)` -/
  insertOneErr : CodeSubmission → Option Err
  /-- failure of `CodeQueCollection.UpdateByID(id, $inc field)` -/
  updateByIDErr : ObjectID → String → Option Err
  /-- failure of `rclient.Set(key, value, ttl)` -/
  redisSetErr : String → String → Duration → Option Err
  /-- `time.Now()` -/
  now : Nat

/-- How a call ends: a normal return or a runtime panic. -/
inductive Outcome where
  | returned
  | panicked (msg : String)
deriving DecidableEq, Repr

/-- Append one event to the trace. -/
def World.emit (w : World) (e : Event) : World :=
  { w with trace := w.trace ++ [e] }

/-! ## Library operations -/

/-- Value of one hexadecimal digit (`encoding/hex`), if it is one. -/
def hexVal (c : Char) : Option Nat :=
  if '0' ≤ c ∧ c ≤ '9' then some (c.toNat - '0'.toNat)
  else if 'a' ≤ c ∧ c ≤ 'f' then some (c.toNat - 'a'.toNat + 10)
  else if 'A' ≤ c ∧ c ≤ 'F' then some (c.toNat - 'A'.toNat + 10)
  else none

/-- `hex.Decode`: pairs of hexadecimal digits to bytes. -/
def hexDecode : List Char → Except Err (List Nat)
  | [] => .ok []
  | [_] => .error (Err.lib "encoding/hex: odd length hex string")
  | a :: b :: rest =>
    match hexVal a, hexVal b with
    | some x, some y =>
      match hexDecode rest with
      | .ok bs => .ok ((16 * x + y) :: bs)
      | .error e => .error e
    | _, _ => .error (Err.lib "encoding/hex: invalid byte")

/-- `primitive.ObjectIDFromHex`: the string must be 24 bytes long and consist
of hexadecimal digits. -/
def ObjectIDFromHex (s : String) : Except Err ObjectID :=
  if s.utf8ByteSize ≠ 24 then
    .error (Err.lib "the provided hex string is not a valid ObjectID")
  else hexDecode s.data

/-- Projection `templates.<language>` of a problem document, as decoded into
`models.CodeQue`. -/
def project (language : String) (d : CodeQueDoc) : CodeQue :=
  { Templates := d.templates.filter (fun t => t.1 = language) }

/-- `CodeQueCollection.FindOne(problemId = queId, projection).Decode(&CodeQue)`. -/
def FindOne (env : Env) (coll : List CodeQueDoc) (queId language : String) :
    Except Err CodeQue :=
  match env.findOneErr queId ("templates." ++ language) with
  | some e => .error e
  | none =>
    match coll.find? (fun d => d.problemId = queId) with
    | none => .error (Err.lib "mongo: no documents in result")
    | some d => .ok (project language d)

/-- The `$inc` of one field by 1 on a document. -/
def incDoc (field : String) (d : CodeQueDoc) : CodeQueDoc :=
  if field = "submissions.correct" then { d with correct := d.correct + 1 }
  else if field = "submissions.wrong" then { d with wrong := d.wrong + 1 }
  else d

/-- Apply `$inc field 1` to the first document whose `_id` is `id`; the second
component is `ModifiedCount`. -/
def incByID : List CodeQueDoc → ObjectID → String → List CodeQueDoc × Nat
  | [], _, _ => ([], 0)
  | d :: ds, id, field =>
    if d.ID = id then (incDoc field d :: ds, 1)
    else ((d :: (incByID ds id field).1), (incByID ds id field).2)

/-- `CodeQueCollection.UpdateByID(id, {$inc: {field: 1}})`: the new collection
and `ModifiedCount`, or the error of the store. -/
def UpdateByID (env : Env) (coll : List CodeQueDoc) (id : ObjectID) (field : String) :
    Except Err (List CodeQueDoc × Nat) :=
  match env.updateByIDErr id field with
  | some e => .error e
  | none => .ok (incByID coll id field)

/-- `SubmissionCollection.InsertOne(doc)`: append-only. -/
def InsertOne (env : Env) (coll : List CodeSubmission) (doc : CodeSubmission) :
    Except Err (List CodeSubmission) :=
  match env.insertOneErr doc with
  | some e => .error e
  | none => .ok (coll ++ [doc])

/-- Redis `SET key value EX ttl`: overwrite semantics. -/
def redisSet (env : Env) (cache : List CacheEntry) (key value : String) (ttl : Duration) :
    Except Err (List CacheEntry) :=
  match env.redisSetErr key value ttl with
  | some e => .error e
  | none => .ok (⟨key, value, ttl⟩ :: cache.filter (fun e => e.key ≠ key))

/-- Redis `GET key`, with the time-to-live the entry was written with. -/
def redisGet (cache : List CacheEntry) (key : String) : Option (String × Duration) :=
  (cache.find? (fun e => e.key = key)).map (fun e => (e.value, e.ttl))

/-- Value of `submissions.correct` of the problem with the given `_id`. -/
def correctOf (coll : List CodeQueDoc) (id : ObjectID) : Int :=
  ((coll.find? (fun d => d.ID = id)).map (fun d => d.correct)).getD 0

/-- Value of `submissions.wrong` of the problem with the given `_id`. -/
def wrongOf (coll : List CodeQueDoc) (id : ObjectID) : Int :=
  ((coll.find? (fun d => d.ID = id)).map (fun d => d.wrong)).getD 0

/-! ## The program -/

/-- `UpdateCodeQue` (main.go:172-192). -/
def UpdateCodeQue (env : Env) (queID : ObjectID) (status : Bool) (w : World) :
    Option Err × World :=
  let updateField := if status then "submissions.correct" else "submissions.wrong"
  let w1 := w.emit (Event.updateByID queID updateField)
  match UpdateByID env w1.CodeQueCollection queID updateField with
  | .error e => (some e, w1)
  | .ok (coll, modifiedCount) =>
    if modifiedCount = 0 then
      (some (Err.new "no document updated"), { w1 with CodeQueCollection := coll })
    else (none, { w1 with CodeQueCollection := coll })

/-- The `models.CodeSubmission` literal of main.go:154-164. -/
def newSubmission (env : Env) (queID : ObjectID) (output : String)
    (req : CodeExecutionRequest) : CodeSubmission :=
  { PID := req.PID, QueID := queID, Email := req.Email, Language := req.Language,
    Code := req.Code, Output := output, SubmittedAT := env.now,
    Runtime := "0", Memory := "0" }

/-- `InsertSubmissionsAndUpdateCodeQue` (main.go:149-170). The result of
`UpdateCodeQue` is dropped at line 168 and `nil` is returned at line 169. -/
def InsertSubmissionsAndUpdateCodeQue (env : Env) (queId : String) (output : String)
    (req : CodeExecutionRequest) (status : Bool) (w : World) : Option Err × World :=
  match ObjectIDFromHex queId with
  | .error e => (some e, w)
  | .ok queID =>
    let doc := newSubmission env queID output req
    let w1 := w.emit (Event.insertOne doc)
    match InsertOne env w1.SubmissionCollection doc with
    | .error e => (some e, w1)
    | .ok coll =>
      let w2 := { w1 with SubmissionCollection := coll }
      (none, (UpdateCodeQue env queID status w2).2)

/-- Lines 111-121 of `executeAndStore`: for a submit request, template lookup
and code generation. `Sum.inl` is the early return of line 117; otherwise the
request continues with `req.Code` overwritten by what `GenerateCode` returned,
whose error is assigned at line 120 and never read. -/
def resolveAndGenerate (env : Env) (req : CodeExecutionRequest) (w : World) :
    World ⊕ (CodeExecutionRequest × World) :=
  if req.ReqType = "submit" then
    let w1 := w.emit (Event.findOne req.QueID ("templates." ++ req.Language))
    match FindOne env w1.CodeQueCollection req.QueID req.Language with
    | .error e => Sum.inl (w1.emit (Event.logPrintf "Error finding problem in MongoDB: %v" e))
    | .ok codeQue =>
      let w2 := w1.emit (Event.generateCode req.Language req.Code)
      Sum.inr ({ req with Code := (env.GenerateCode req.Language req.Code codeQue).1 }, w2)
  else Sum.inr (req, w)

/-- Lines 130-140 of `executeAndStore`: routing of a submit result. The decode
error is logged and execution continues; `data["status"].(bool)` panics unless
the dynamic value is a bool; the error of
`InsertSubmissionsAndUpdateCodeQue` is assigned and never read. -/
def routeSubmit (env : Env) (req : CodeExecutionRequest) (output : String) (w : World) :
    Outcome × World :=
  let w1 := w.emit (Event.jsonUnmarshal output)
  let w2 :=
    match (env.jsonUnmarshal output).2 with
    | some e => w1.emit (Event.logPrintf "Error unmarshaling JSON: %v" e)
    | none => w1
  let w3 := w2.emit (Event.println "Storing submission in MongoDB")
  match mapIndex (env.jsonUnmarshal output).1 "status" with
  | Dyn.bool status =>
    (Outcome.returned, (InsertSubmissionsAndUpdateCodeQue env req.QueID output req status w3).2)
  | _ => (Outcome.panicked "interface conversion: interface {} is not bool", w3)

/-- Lines 141-146 of `executeAndStore`: routing of a run result to the cache. -/
def routeRun (env : Env) (req : CodeExecutionRequest) (output : String) (w : World) :
    Outcome × World :=
  let w1 := w.emit (Event.redisSet req.PID output (3 * Minute))
  match redisSet env w1.redis req.PID output (3 * Minute) with
  | .ok cache =>
    (Outcome.returned, ({ w1 with redis := cache }).emit (Event.println "Stored output in Redis"))
  | .error e =>
    (Outcome.returned,
      (w1.emit (Event.println "Stored output in Redis")).emit
        (Event.logPrintf "Error storing output in Redis: %v" e))

/-- `executeAndStore` (main.go:106-147). -/
def executeAndStore (env : Env) (req : CodeExecutionRequest) (w : World) : Outcome × World :=
  match resolveAndGenerate env req w with
  | Sum.inl w1 => (Outcome.returned, w1)
  | Sum.inr (req1, w1) =>
    let w2 := w1.emit (Event.executeCode req1.Language req1.Code)
    match env.ExecuteCode req1.Language req1.Code with
    | .error e => (Outcome.returned, w2.emit (Event.logPrintf "Error when calling ExecuteCode: %v" e))
    | .ok output =>
      if req1.ReqType = "submit" then routeSubmit env req1 output w2
      else routeRun env req1 output w2

/-- A message read from a stream (`kafka.Message`), restricted to its payload. -/
structure Message where
  Value : String
deriving DecidableEq, Repr

/-- State of one ingestor: what it has sent on the channel, in order, and
what it has logged. -/
structure Ingest where
  sent : List CodeExecutionRequest
  logged : List Event
deriving DecidableEq, Repr

/-- One iteration of the loop of `processMessages` (main.go:88-103), on the
result of `reader.ReadMessage`; `unmarshal` is `json.Unmarshal` into a fresh
`CodeExecutionRequest`. -/
def processMessage (unmarshal : String → Except Err CodeExecutionRequest)
    (st : Ingest) (r : Except Err Message) : Ingest :=
  match r with
  | .error e => { st with logged := st.logged ++ [Event.logPrintf "Error reading message: %v" e] }
  | .ok msg =>
    match unmarshal msg.Value with
    | .error e =>
      { st with logged := st.logged ++ [Event.logPrintf "Error unmarshaling JSON: %v" e] }
    | .ok req => { st with sent := st.sent ++ [req] }

/-- `processMessages` (main.go:87-104) on a finite sequence of results of
`reader.ReadMessage`. -/
def processMessages (unmarshal : String → Except Err CodeExecutionRequest) :
    List (Except Err Message) → Ingest → Ingest
  | [], st => st
  | r :: rest, st => processMessages unmarshal rest (processMessage unmarshal st r)

/-- Apply `UpdateCodeQue` once per status, in list order. -/
def applyUpdates (env : Env) (queID : ObjectID) : List Bool → World → World
  | [], w => w
  | s :: rest, w => applyUpdates env queID rest (UpdateCodeQue env queID s w).2

/-! ## Sample data used to evaluate the program -/

/-- A well-formed object id in hexadecimal. -/
def sampleHex : String := "507f1f77bcf86cd799439011"

/-- The bytes of `sampleHex`. -/
def sampleID : ObjectID := [80, 127, 31, 119, 188, 248, 108, 215, 153, 67, 144, 17]

/-- A problem whose `problemId` is the hexadecimal form of its `_id`. -/
def sampleDoc : CodeQueDoc :=
  { ID := sampleID, problemId := sampleHex,
    templates := [("python", "import sys\n")], correct := 4, wrong := 2 }

/-- A world holding the sample problem, no submission and an empty cache. -/
def sampleWorld : World :=
  { SubmissionCollection := [], CodeQueCollection := [sampleDoc], redis := [], trace := [] }

/-- A world without any problem document. -/
def emptyWorld : World :=
  { SubmissionCollection := [], CodeQueCollection := [], redis := [], trace := [] }

/-- Engine output carrying a true status. -/
def passOutput : String := "\x7b\"status\":true\x7d"

/-- An environment in which every collaborator succeeds: the template is put
in front of the code, the engine answers `passOutput`, and the decoder reads
it as an object with a true `status`. -/
def okEnv : Env :=
  { findOneErr := fun _ _ => none
    GenerateCode := fun _ code cq => (String.join (cq.Templates.map (fun t => t.2)) ++ code, none)
    ExecuteCode := fun _ _ => .ok passOutput
    jsonUnmarshal := fun _ => (some [("status", Dyn.bool true)], none)
    insertOneErr := fun _ => none
    updateByIDErr := fun _ _ => none
    redisSetErr := fun _ _ _ => none
    now := 1700000000 }

/-- A submit request for the sample problem. -/
def submitReq : CodeExecutionRequest :=
  { Language := "python", Code := "print(1)", PID := "abc123", ReqType := "submit",
    QueID := sampleHex, Email := "a@b.c" }

/-- A run request. -/
def runReq : CodeExecutionRequest :=
  { Language := "python", Code := "print(1)", PID := "abc123", ReqType := "run",
    QueID := "", Email := "a@b.c" }

/-! ## Further sample data, and definitions used in the statements -/

/-- The field `UpdateCodeQue` selects for a status. -/
def fieldOf (status : Bool) : String :=
  if status then "submissions.correct" else "submissions.wrong"

/-- As `okEnv`, but every `UpdateByID` fails in the store. -/
def updateDownEnv : Env :=
  { okEnv with updateByIDErr := fun _ _ => some (Err.lib "server selection timeout") }

/-- As `okEnv`, but every `InsertOne` fails in the store. -/
def insertDownEnv : Env :=
  { okEnv with insertOneErr := fun _ => some (Err.lib "server selection timeout") }

/-- As `okEnv`, but every Redis `SET` fails. -/
def redisDownEnv : Env :=
  { okEnv with redisSetErr := fun _ _ _ => some (Err.lib "dial tcp: connection refused") }

/-- A world whose only problem is found by `problemId = sampleHex` but whose
`_id` is another object id. -/
def mismatchWorld : World :=
  { SubmissionCollection := [],
    CodeQueCollection := [{ sampleDoc with ID := [0, 0, 0, 0, 0, 0, 0, 0, 0, 0, 0, 1] }],
    redis := [], trace := [] }

/-- As `okEnv`, but the engine answers text that is not JSON; the decoder
reports an error and leaves the map nil. -/
def garbageEnv : Env :=
  { okEnv with
    ExecuteCode := fun _ _ => .ok "Traceback (most recent call last)"
    jsonUnmarshal := fun _ =>
      (none, some (Err.lib "invalid character T looking for beginning of value")) }

/-- As `okEnv`, but the decoded object has no `status` key. -/
def noStatusEnv : Env :=
  { okEnv with
    ExecuteCode := fun _ _ => .ok "\x7b\x7d"
    jsonUnmarshal := fun _ => (some [], none) }

/-- As `okEnv`, but `status` is a JSON string. -/
def stringStatusEnv : Env :=
  { okEnv with
    ExecuteCode := fun _ _ => .ok "\x7b\"status\":\"ok\"\x7d"
    jsonUnmarshal := fun _ => (some [("status", Dyn.other "string")], none) }

/-- As `okEnv`, but `GenerateCode` fails, returning the empty string and an
error. -/
def genFailEnv : Env :=
  { okEnv with GenerateCode := fun _ _ _ => ("", some (Err.lib "unsupported language")) }

/-- What `primitive.ObjectIDFromHex` accepts: 24 bytes, all hexadecimal
digits. -/
def isHexObjectID (s : String) : Prop :=
  s.utf8ByteSize = 24 ∧ ∀ c ∈ s.data, (hexVal c).isSome = true

instance (s : String) : Decidable (isHexObjectID s) := by
  unfold isHexObjectID
  infer_instance

/-- A submit request whose QueID is too short to be an object id, although a
problem carries it as `problemId`. -/
def shortIdReq : CodeExecutionRequest :=
  { submitReq with QueID := "two-sum" }

/-- A world whose problem is keyed by the `problemId` "two-sum". -/
def slugWorld : World :=
  { SubmissionCollection := [],
    CodeQueCollection := [{ sampleDoc with problemId := "two-sum" }],
    redis := [], trace := [] }

/-- The request a read result contributes to the channel, if any: the decoded
payload of a message that was read and decodes. -/
def forwarded (unmarshal : String → Except Err CodeExecutionRequest)
    (r : Except Err Message) : Option CodeExecutionRequest :=
  match r with
  | .error _ => none
  | .ok msg =>
    match unmarshal msg.Value with
    | .error _ => none
    | .ok req => some req

/-- A decoder that accepts exactly the payload "run-abc123", as `runReq`. -/
def sampleUnmarshal (payload : String) : Except Err CodeExecutionRequest :=
  if payload = "run-abc123" then .ok runReq
  else .error (Err.lib "unexpected end of JSON input")

/-! ## Basic facts -/

@[simp]
theorem emit_SubmissionCollection (w : World) (e : Event) :
    (w.emit e).SubmissionCollection = w.SubmissionCollection := rfl

@[simp]
theorem emit_CodeQueCollection (w : World) (e : Event) :
    (w.emit e).CodeQueCollection = w.CodeQueCollection := rfl

@[simp]
theorem emit_redis (w : World) (e : Event) : (w.emit e).redis = w.redis := rfl

@[simp]
theorem emit_trace (w : World) (e : Event) : (w.emit e).trace = w.trace ++ [e] := rfl

theorem sampleHex_decodes : ObjectIDFromHex sampleHex = .ok sampleID := by rfl

/-- `UpdateCodeQue` touches neither the submissions nor the cache. -/
theorem UpdateCodeQue_frame (env : Env) (queID : ObjectID) (status : Bool) (w : World) :
    (UpdateCodeQue env queID status w).2.SubmissionCollection = w.SubmissionCollection ∧
    (UpdateCodeQue env queID status w).2.redis = w.redis := by
  unfold UpdateCodeQue
  simp only []
  split
  · simp
  · split <;> simp

/-- The trace after `UpdateCodeQue` is the old trace plus the one store call. -/
theorem UpdateCodeQue_trace (env : Env) (queID : ObjectID) (status : Bool) (w : World) :
    (UpdateCodeQue env queID status w).2.trace =
      w.trace ++ [Event.updateByID queID
        (if status then "submissions.correct" else "submissions.wrong")] := by
  unfold UpdateCodeQue
  simp only []
  split
  · simp
  · split <;> simp

/-! ## The aggregate counters under `incByID` -/

theorem incByID_count_of_mem (coll : List CodeQueDoc) (id : ObjectID) (field : String)
    (h : ∃ d ∈ coll, d.ID = id) : (incByID coll id field).2 = 1 := by
  induction coll with
  | nil => simp at h
  | cons d ds ih =>
    unfold incByID
    by_cases hd : d.ID = id
    · simp [hd]
    · simp only [hd, if_false]
      apply ih
      obtain ⟨x, hx, hxid⟩ := h
      rcases List.mem_cons.mp hx with rfl | hx
      · exact absurd hxid hd
      · exact ⟨x, hx, hxid⟩

theorem incByID_count_of_not_mem (coll : List CodeQueDoc) (id : ObjectID) (field : String)
    (h : ¬ ∃ d ∈ coll, d.ID = id) : incByID coll id field = (coll, 0) := by
  induction coll with
  | nil => rfl
  | cons d ds ih =>
    unfold incByID
    have hd : ¬ d.ID = id := fun hd => h ⟨d, List.mem_cons_self _ _, hd⟩
    have hds : ¬ ∃ x ∈ ds, x.ID = id := fun ⟨x, hx, hxid⟩ => h ⟨x, List.mem_cons_of_mem _ hx, hxid⟩
    simp [hd, ih hds]

theorem incByID_ids (coll : List CodeQueDoc) (id : ObjectID) (field : String) :
    (incByID coll id field).1.map (fun d => d.ID) = coll.map (fun d => d.ID) := by
  induction coll with
  | nil => rfl
  | cons d ds ih =>
    unfold incByID
    by_cases hd : d.ID = id
    · have hI : (incDoc field d).ID = d.ID := by
        unfold incDoc
        split
        · rfl
        · split <;> rfl
      simp only [if_pos hd, List.map_cons, hI]
    · simp only [hd, if_false, List.map_cons, ih]

theorem incByID_mem_iff (coll : List CodeQueDoc) (id id2 : ObjectID) (field : String) :
    (∃ d ∈ (incByID coll id field).1, d.ID = id2) ↔ (∃ d ∈ coll, d.ID = id2) := by
  have h := incByID_ids coll id field
  have key : ∀ l : List CodeQueDoc, (∃ d ∈ l, d.ID = id2) ↔ id2 ∈ l.map (fun d => d.ID) := by
    intro l
    simp [List.mem_map]
  rw [key, key, h]

theorem incDoc_correct (field : String) (d : CodeQueDoc) :
    (incDoc field d).correct = d.correct + (if field = "submissions.correct" then 1 else 0) := by
  unfold incDoc
  by_cases h1 : field = "submissions.correct"
  · simp [h1]
  · by_cases h2 : field = "submissions.wrong" <;> simp [h1, h2]

theorem incDoc_wrong (field : String) (d : CodeQueDoc) :
    (incDoc field d).wrong = d.wrong + (if field = "submissions.wrong" then 1 else 0) := by
  unfold incDoc
  by_cases h1 : field = "submissions.correct"
  · have h2 : ¬ ("submissions.correct" = "submissions.wrong") := by decide
    simp [h1, h2]
  · by_cases h2 : field = "submissions.wrong" <;> simp [h1, h2]

theorem incDoc_ID (field : String) (d : CodeQueDoc) : (incDoc field d).ID = d.ID := by
  unfold incDoc
  split
  · rfl
  · split <;> rfl

theorem correctOf_incByID (coll : List CodeQueDoc) (id : ObjectID) (field : String)
    (h : ∃ d ∈ coll, d.ID = id) :
    correctOf (incByID coll id field).1 id =
      correctOf coll id + (if field = "submissions.correct" then 1 else 0) := by
  induction coll with
  | nil => simp at h
  | cons d ds ih =>
    unfold incByID
    by_cases hd : d.ID = id
    · simp [hd, correctOf, List.find?, incDoc_ID, incDoc_correct]
    · have hds : ∃ x ∈ ds, x.ID = id := by
        obtain ⟨x, hx, hxid⟩ := h
        rcases List.mem_cons.mp hx with rfl | hx
        · exact absurd hxid hd
        · exact ⟨x, hx, hxid⟩
      have := ih hds
      simp only [correctOf] at this
      simp [hd, correctOf, List.find?, this]

theorem wrongOf_incByID (coll : List CodeQueDoc) (id : ObjectID) (field : String)
    (h : ∃ d ∈ coll, d.ID = id) :
    wrongOf (incByID coll id field).1 id =
      wrongOf coll id + (if field = "submissions.wrong" then 1 else 0) := by
  induction coll with
  | nil => simp at h
  | cons d ds ih =>
    unfold incByID
    by_cases hd : d.ID = id
    · simp [hd, wrongOf, List.find?, incDoc_ID, incDoc_wrong]
    · have hds : ∃ x ∈ ds, x.ID = id := by
        obtain ⟨x, hx, hxid⟩ := h
        rcases List.mem_cons.mp hx with rfl | hx
        · exact absurd hxid hd
        · exact ⟨x, hx, hxid⟩
      have := ih hds
      simp only [wrongOf] at this
      simp [hd, wrongOf, List.find?, this]

/-- Documents with another `_id` are left as they were. -/
theorem find_incByID_other (coll : List CodeQueDoc) (id id2 : ObjectID) (field : String)
    (hne : id2 ≠ id) :
    (incByID coll id field).1.find? (fun d => d.ID = id2) = coll.find? (fun d => d.ID = id2) := by
  induction coll with
  | nil => rfl
  | cons d ds ih =>
    unfold incByID
    by_cases hd : d.ID = id
    · have h2 : ¬ d.ID = id2 := fun h => hne (h.symm.trans hd)
      simp [hd, List.find?, incDoc_ID, h2, hne.symm]
    · by_cases h2 : d.ID = id2
      · simp only [if_neg hd]
        simp [List.find?, h2]
      · simp only [if_neg hd]
        simp [List.find?, h2, ih]

/-! ## `UpdateCodeQue` -/

theorem UpdateCodeQue_of_storeErr (env : Env) (queID : ObjectID) (status : Bool) (w : World)
    (e : Err) (h : env.updateByIDErr queID (fieldOf status) = some e) :
    UpdateCodeQue env queID status w =
      (some e, w.emit (Event.updateByID queID (fieldOf status))) := by
  unfold fieldOf at h
  simp [UpdateCodeQue, UpdateByID, h, fieldOf]

theorem UpdateCodeQue_of_noMatch (env : Env) (queID : ObjectID) (status : Bool) (w : World)
    (h : env.updateByIDErr queID (fieldOf status) = none)
    (hno : ¬ ∃ d ∈ w.CodeQueCollection, d.ID = queID) :
    UpdateCodeQue env queID status w =
      (some (Err.new "no document updated"),
        w.emit (Event.updateByID queID (fieldOf status))) := by
  unfold fieldOf at h
  simp [UpdateCodeQue, UpdateByID, h, fieldOf, incByID_count_of_not_mem _ _ _ hno, World.emit]

theorem UpdateCodeQue_of_match (env : Env) (queID : ObjectID) (status : Bool) (w : World)
    (h : env.updateByIDErr queID (fieldOf status) = none)
    (hex : ∃ d ∈ w.CodeQueCollection, d.ID = queID) :
    (UpdateCodeQue env queID status w).1 = none ∧
    (UpdateCodeQue env queID status w).2.CodeQueCollection =
      (incByID w.CodeQueCollection queID (fieldOf status)).1 := by
  unfold fieldOf at h
  have hc := incByID_count_of_mem w.CodeQueCollection queID (fieldOf status) hex
  unfold fieldOf at hc
  simp [UpdateCodeQue, UpdateByID, h, fieldOf, hc]

theorem fieldOf_correct (status : Bool) :
    (if fieldOf status = "submissions.correct" then (1 : Int) else 0) =
      (if status then 1 else 0) := by
  cases status <;> simp [fieldOf]

theorem fieldOf_wrong (status : Bool) :
    (if fieldOf status = "submissions.wrong" then (1 : Int) else 0) =
      (if status then 0 else 1) := by
  cases status <;> simp [fieldOf]

/-- A successful, matching `UpdateCodeQue` adds one to the selected counter of
the problem and nothing to the other. -/
theorem UpdateCodeQue_counters (env : Env) (queID : ObjectID) (status : Bool) (w : World)
    (h : env.updateByIDErr queID (fieldOf status) = none)
    (hex : ∃ d ∈ w.CodeQueCollection, d.ID = queID) :
    correctOf (UpdateCodeQue env queID status w).2.CodeQueCollection queID =
      correctOf w.CodeQueCollection queID + (if status then 1 else 0) ∧
    wrongOf (UpdateCodeQue env queID status w).2.CodeQueCollection queID =
      wrongOf w.CodeQueCollection queID + (if status then 0 else 1) ∧
    (∃ d ∈ (UpdateCodeQue env queID status w).2.CodeQueCollection, d.ID = queID) := by
  have hm := (UpdateCodeQue_of_match env queID status w h hex).2
  rw [hm]
  refine ⟨?_, ?_, ?_⟩
  · rw [correctOf_incByID _ _ _ hex, fieldOf_correct]
  · rw [wrongOf_incByID _ _ _ hex, fieldOf_wrong]
  · exact (incByID_mem_iff _ _ _ _).mpr hex

/-- Counters of the other problems are never changed by `UpdateCodeQue`. -/
theorem UpdateCodeQue_other (env : Env) (queID id2 : ObjectID) (status : Bool) (w : World)
    (hne : id2 ≠ queID) :
    correctOf (UpdateCodeQue env queID status w).2.CodeQueCollection id2 =
      correctOf w.CodeQueCollection id2 ∧
    wrongOf (UpdateCodeQue env queID status w).2.CodeQueCollection id2 =
      wrongOf w.CodeQueCollection id2 := by
  have key : (UpdateCodeQue env queID status w).2.CodeQueCollection.find? (fun d => d.ID = id2) =
      w.CodeQueCollection.find? (fun d => d.ID = id2) := by
    unfold UpdateCodeQue UpdateByID
    simp only [emit_CodeQueCollection]
    generalize (if status = true then "submissions.correct" else "submissions.wrong") = f
    cases hE : env.updateByIDErr queID f with
    | some e => simp
    | none =>
      simp only []
      by_cases h0 : (incByID w.CodeQueCollection queID f).2 = 0
      · simp only [if_pos h0]
        exact find_incByID_other _ _ _ _ hne
      · simp only [if_neg h0]
        exact find_incByID_other _ _ _ _ hne
  simp only [correctOf, wrongOf, key, and_self]

/-- Counters after a run of successful updates, in list order. -/
theorem applyUpdates_counters (env : Env) (queID : ObjectID)
    (hok : ∀ field, env.updateByIDErr queID field = none) (l : List Bool) :
    ∀ w : World, (∃ d ∈ w.CodeQueCollection, d.ID = queID) →
      correctOf (applyUpdates env queID l w).CodeQueCollection queID =
        correctOf w.CodeQueCollection queID + l.count true ∧
      wrongOf (applyUpdates env queID l w).CodeQueCollection queID =
        wrongOf w.CodeQueCollection queID + l.count false := by
  induction l with
  | nil => intro w _; simp [applyUpdates]
  | cons s rest ih =>
    intro w hex
    obtain ⟨hc, hw, hex2⟩ := UpdateCodeQue_counters env queID s w (hok _) hex
    obtain ⟨ihc, ihw⟩ := ih (UpdateCodeQue env queID s w).2 hex2
    unfold applyUpdates
    rw [ihc, ihw, hc, hw]
    cases s <;> simp [List.count_cons] <;> omega

/-! ## `InsertSubmissionsAndUpdateCodeQue` -/

/-- When the hexadecimal id is well formed and the insert succeeds, the call
returns nil whatever `UpdateCodeQue` returned, and the world is the one
`UpdateCodeQue` left after the insert. -/
theorem Insert_of_insert_ok (env : Env) (queId output : String) (req : CodeExecutionRequest)
    (status : Bool) (w : World) (queID : ObjectID)
    (hid : ObjectIDFromHex queId = .ok queID)
    (hins : env.insertOneErr (newSubmission env queID output req) = none) :
    InsertSubmissionsAndUpdateCodeQue env queId output req status w =
      (none, (UpdateCodeQue env queID status
        { (w.emit (Event.insertOne (newSubmission env queID output req))) with
          SubmissionCollection :=
            w.SubmissionCollection ++ [newSubmission env queID output req] }).2) := by
  simp [InsertSubmissionsAndUpdateCodeQue, hid, InsertOne, hins]

theorem Insert_of_bad_hex (env : Env) (queId output : String) (req : CodeExecutionRequest)
    (status : Bool) (w : World) (e : Err) (hid : ObjectIDFromHex queId = .error e) :
    InsertSubmissionsAndUpdateCodeQue env queId output req status w = (some e, w) := by
  simp [InsertSubmissionsAndUpdateCodeQue, hid]

theorem Insert_of_insert_err (env : Env) (queId output : String) (req : CodeExecutionRequest)
    (status : Bool) (w : World) (queID : ObjectID) (e : Err)
    (hid : ObjectIDFromHex queId = .ok queID)
    (hins : env.insertOneErr (newSubmission env queID output req) = some e) :
    InsertSubmissionsAndUpdateCodeQue env queId output req status w =
      (some e, w.emit (Event.insertOne (newSubmission env queID output req))) := by
  simp [InsertSubmissionsAndUpdateCodeQue, hid, InsertOne, hins]

/-- `InsertSubmissionsAndUpdateCodeQue` never writes to the cache. -/
theorem Insert_redis (env : Env) (queId output : String) (req : CodeExecutionRequest)
    (status : Bool) (w : World) :
    (InsertSubmissionsAndUpdateCodeQue env queId output req status w).2.redis = w.redis := by
  unfold InsertSubmissionsAndUpdateCodeQue
  cases hid : ObjectIDFromHex queId with
  | error e => rfl
  | ok queID =>
    simp only [InsertOne]
    cases hins : env.insertOneErr (newSubmission env queID output req) with
    | some e => rfl
    | none => simp [(UpdateCodeQue_frame _ _ _ _).2]

/-- No `redisSet` call is made by `InsertSubmissionsAndUpdateCodeQue`. -/
theorem Insert_trace_no_redisSet (env : Env) (queId output : String)
    (req : CodeExecutionRequest) (status : Bool) (w : World) (k v : String) (t : Duration)
    (h : Event.redisSet k v t ∈
      (InsertSubmissionsAndUpdateCodeQue env queId output req status w).2.trace) :
    Event.redisSet k v t ∈ w.trace := by
  unfold InsertSubmissionsAndUpdateCodeQue at h
  cases hid : ObjectIDFromHex queId with
  | error e => simpa [hid] using h
  | ok queID =>
    simp only [hid, InsertOne] at h
    cases hins : env.insertOneErr (newSubmission env queID output req) with
    | some e => simpa [hins] using h
    | none => simpa [hins, UpdateCodeQue_trace] using h

/-- C7: when the hexadecimal id is well formed and the submission insert
fails with an error, `InsertSubmissionsAndUpdateCodeQue` returns that error,
the only store call it made is the failed insert (so `UpdateCodeQue` was not
invoked: no `updateByID` call is added to the trace), and the problem
collection, hence both counters of every problem, is unchanged; so are the
stored submissions. -/
theorem insert_failure_skips_aggregate (env : Env) (queId output : String)
    (req : CodeExecutionRequest) (status : Bool) (w : World) (queID : ObjectID) (e : Err)
    (hid : ObjectIDFromHex queId = .ok queID)
    (hins : env.insertOneErr (newSubmission env queID output req) = some e) :
    (InsertSubmissionsAndUpdateCodeQue env queId output req status w).1 = some e ∧
    (InsertSubmissionsAndUpdateCodeQue env queId output req status w).2.trace =
      w.trace ++ [Event.insertOne (newSubmission env queID output req)] ∧
    (∀ id field, Event.updateByID id field ∈
        (InsertSubmissionsAndUpdateCodeQue env queId output req status w).2.trace →
      Event.updateByID id field ∈ w.trace) ∧
    (InsertSubmissionsAndUpdateCodeQue env queId output req status w).2.CodeQueCollection =
      w.CodeQueCollection ∧
    (∀ id,
      correctOf (InsertSubmissionsAndUpdateCodeQue env queId output req status w).2.CodeQueCollection
          id = correctOf w.CodeQueCollection id ∧
      wrongOf (InsertSubmissionsAndUpdateCodeQue env queId output req status w).2.CodeQueCollection
          id = wrongOf w.CodeQueCollection id) ∧
    (InsertSubmissionsAndUpdateCodeQue env queId output req status w).2.SubmissionCollection =
      w.SubmissionCollection := by
  rw [Insert_of_insert_err env queId output req status w queID e hid hins]
  simp

/-- Witness of C7 on the sample problem with a failing insert. -/
theorem insert_failure_skips_aggregate_witness :
    ObjectIDFromHex sampleHex = .ok sampleID ∧
    insertDownEnv.insertOneErr (newSubmission insertDownEnv sampleID passOutput submitReq) =
      some (Err.lib "server selection timeout") ∧
    (InsertSubmissionsAndUpdateCodeQue insertDownEnv sampleHex passOutput submitReq true
      sampleWorld).1 = some (Err.lib "server selection timeout") ∧
    (InsertSubmissionsAndUpdateCodeQue insertDownEnv sampleHex passOutput submitReq true
      sampleWorld).2.CodeQueCollection = sampleWorld.CodeQueCollection :=
  have h := insert_failure_skips_aggregate insertDownEnv sampleHex passOutput submitReq true
    sampleWorld sampleID (Err.lib "server selection timeout") sampleHex_decodes rfl
  ⟨sampleHex_decodes, rfl, h.1, h.2.2.2.1⟩

/-- C6, evaluated: with a well-formed id and a successful insert,
`InsertSubmissionsAndUpdateCodeQue` returns nil both when the store fails the
update and when the update matches no document, although `UpdateCodeQue`
returned an error in each case (two different ones); the submission stays
inserted. -/
theorem aggregate_failure_returns_nil :
    (UpdateCodeQue updateDownEnv sampleID true sampleWorld).1 =
      some (Err.lib "server selection timeout") ∧
    (InsertSubmissionsAndUpdateCodeQue updateDownEnv sampleHex passOutput submitReq true
      sampleWorld).1 = none ∧
    (InsertSubmissionsAndUpdateCodeQue updateDownEnv sampleHex passOutput submitReq true
      sampleWorld).2.SubmissionCollection =
        [newSubmission updateDownEnv sampleID passOutput submitReq] ∧
    (UpdateCodeQue okEnv sampleID true emptyWorld).1 = some (Err.new "no document updated") ∧
    (InsertSubmissionsAndUpdateCodeQue okEnv sampleHex passOutput submitReq true
      emptyWorld).1 = none ∧
    (InsertSubmissionsAndUpdateCodeQue okEnv sampleHex passOutput submitReq true
      emptyWorld).2.SubmissionCollection =
        [newSubmission okEnv sampleID passOutput submitReq] := by
  have h1 := Insert_of_insert_ok updateDownEnv sampleHex passOutput submitReq true sampleWorld
    sampleID sampleHex_decodes rfl
  have h2 := Insert_of_insert_ok okEnv sampleHex passOutput submitReq true emptyWorld
    sampleID sampleHex_decodes rfl
  refine ⟨rfl, ?_, ?_, rfl, ?_, ?_⟩
  · rw [h1]
  · rw [h1, (UpdateCodeQue_frame _ _ _ _).1]
    rfl
  · rw [h2]
  · rw [h2, (UpdateCodeQue_frame _ _ _ _).1]
    rfl

/-! ## `executeAndStore`: routing -/

theorem resolveAndGenerate_of_not_submit (env : Env) (req : CodeExecutionRequest) (w : World)
    (h : req.ReqType ≠ "submit") : resolveAndGenerate env req w = Sum.inr (req, w) := by
  simp [resolveAndGenerate, h]

theorem resolveAndGenerate_of_lookup_err (env : Env) (req : CodeExecutionRequest) (w : World)
    (e : Err) (h : req.ReqType = "submit")
    (hl : FindOne env w.CodeQueCollection req.QueID req.Language = .error e) :
    resolveAndGenerate env req w =
      Sum.inl ((w.emit (Event.findOne req.QueID ("templates." ++ req.Language))).emit
        (Event.logPrintf "Error finding problem in MongoDB: %v" e)) := by
  simp [resolveAndGenerate, h, hl]

theorem resolveAndGenerate_of_lookup_ok (env : Env) (req : CodeExecutionRequest) (w : World)
    (cq : CodeQue) (h : req.ReqType = "submit")
    (hl : FindOne env w.CodeQueCollection req.QueID req.Language = .ok cq) :
    resolveAndGenerate env req w =
      Sum.inr ({ req with Code := (env.GenerateCode req.Language req.Code cq).1 },
        (w.emit (Event.findOne req.QueID ("templates." ++ req.Language))).emit
          (Event.generateCode req.Language req.Code)) := by
  simp [resolveAndGenerate, h, hl]

/-- The run route leaves both collections alone and makes no collection call. -/
theorem routeRun_frame (env : Env) (req : CodeExecutionRequest) (output : String) (w : World) :
    (routeRun env req output w).2.SubmissionCollection = w.SubmissionCollection ∧
    (routeRun env req output w).2.CodeQueCollection = w.CodeQueCollection ∧
    (∀ doc, Event.insertOne doc ∈ (routeRun env req output w).2.trace →
      Event.insertOne doc ∈ w.trace) ∧
    (∀ id field, Event.updateByID id field ∈ (routeRun env req output w).2.trace →
      Event.updateByID id field ∈ w.trace) := by
  unfold routeRun redisSet
  cases env.redisSetErr req.PID output (3 * Minute) <;> simp

/-- The submit route never writes to the cache and makes no cache call. -/
theorem routeSubmit_frame (env : Env) (req : CodeExecutionRequest) (output : String)
    (w : World) :
    (routeSubmit env req output w).2.redis = w.redis ∧
    (∀ k v t, Event.redisSet k v t ∈ (routeSubmit env req output w).2.trace →
      Event.redisSet k v t ∈ w.trace) := by
  unfold routeSubmit
  cases hj : (env.jsonUnmarshal output).2 <;>
    cases hs : mapIndex (env.jsonUnmarshal output).1 "status" <;>
    simp only [Insert_redis, emit_redis, true_and] <;>
    intro k v t hmem
  all_goals first
    | simpa using hmem
    | simpa using Insert_trace_no_redisSet _ _ _ _ _ _ _ _ _ hmem

/-- C3: routing exclusivity of `executeAndStore`, for every request, world
and outcome of the collaborators. A request of type "run" leaves the
submission collection and the problem collection (hence every counter)
unchanged and adds no `insertOne` or `updateByID` call to the trace; a request
of type "submit" leaves the cache unchanged and adds no `redisSet` call to the
trace. -/
theorem routing_exclusive (env : Env) (req : CodeExecutionRequest) (w : World) :
    (req.ReqType = "run" →
      (executeAndStore env req w).2.SubmissionCollection = w.SubmissionCollection ∧
      (executeAndStore env req w).2.CodeQueCollection = w.CodeQueCollection ∧
      (∀ doc, Event.insertOne doc ∈ (executeAndStore env req w).2.trace →
        Event.insertOne doc ∈ w.trace) ∧
      (∀ id field, Event.updateByID id field ∈ (executeAndStore env req w).2.trace →
        Event.updateByID id field ∈ w.trace)) ∧
    (req.ReqType = "submit" →
      (executeAndStore env req w).2.redis = w.redis ∧
      (∀ k v t, Event.redisSet k v t ∈ (executeAndStore env req w).2.trace →
        Event.redisSet k v t ∈ w.trace)) := by
  constructor
  · intro hrun
    have hns : req.ReqType ≠ "submit" := by rw [hrun]; decide
    unfold executeAndStore
    rw [resolveAndGenerate_of_not_submit env req w hns]
    simp only [hns, if_false]
    cases hx : env.ExecuteCode req.Language req.Code with
    | error e => simp
    | ok output =>
      obtain ⟨h1, h2, h3, h4⟩ :=
        routeRun_frame env req output (w.emit (Event.executeCode req.Language req.Code))
      refine ⟨by simpa using h1, by simpa using h2, ?_, ?_⟩
      · intro doc hd
        simpa using h3 doc hd
      · intro id field hd
        simpa using h4 id field hd
  · intro hsub
    unfold executeAndStore
    cases hl : FindOne env w.CodeQueCollection req.QueID req.Language with
    | error e =>
      rw [resolveAndGenerate_of_lookup_err env req w e hsub hl]
      simp
    | ok cq =>
      rw [resolveAndGenerate_of_lookup_ok env req w cq hsub hl]
      simp only [hsub, if_true]
      cases hx : env.ExecuteCode req.Language (env.GenerateCode req.Language req.Code cq).1 with
      | error e => simp
      | ok output =>
        simp only []
        generalize hw : ((w.emit (Event.findOne req.QueID ("templates." ++ req.Language))).emit
          (Event.generateCode req.Language req.Code)).emit
            (Event.executeCode req.Language (env.GenerateCode req.Language req.Code cq).1) = w3
        obtain ⟨h1, h2⟩ := routeSubmit_frame env
          { req with Code := (env.GenerateCode req.Language req.Code cq).1 } output w3
        subst hw
        refine ⟨by simpa using h1, ?_⟩
        intro k v t hd
        simpa using h2 k v t hd

/-- Witness of C3 on a run request and on a submit request. -/
theorem routing_exclusive_witness :
    runReq.ReqType = "run" ∧
    (executeAndStore okEnv runReq sampleWorld).2.SubmissionCollection =
      sampleWorld.SubmissionCollection ∧
    (executeAndStore okEnv runReq sampleWorld).2.CodeQueCollection =
      sampleWorld.CodeQueCollection ∧
    submitReq.ReqType = "submit" ∧
    (executeAndStore okEnv submitReq sampleWorld).2.redis = sampleWorld.redis :=
  have hr := (routing_exclusive okEnv runReq sampleWorld).1 rfl
  have hs := (routing_exclusive okEnv submitReq sampleWorld).2 rfl
  ⟨rfl, hr.1, hr.2.1, rfl, hs.1⟩

/-! ## `executeAndStore`: the run route -/

theorem executeAndStore_run_ok (env : Env) (req : CodeExecutionRequest) (w : World)
    (o : String) (hrun : req.ReqType = "run")
    (hx : env.ExecuteCode req.Language req.Code = .ok o)
    (hset : env.redisSetErr req.PID o (3 * Minute) = none) :
    executeAndStore env req w =
      (Outcome.returned,
        { w with
          redis := ⟨req.PID, o, 3 * Minute⟩ :: w.redis.filter (fun e => e.key ≠ req.PID)
          trace := w.trace ++ [Event.executeCode req.Language req.Code,
            Event.redisSet req.PID o (3 * Minute), Event.println "Stored output in Redis"] }) := by
  have hns : req.ReqType ≠ "submit" := by rw [hrun]; decide
  unfold executeAndStore
  rw [resolveAndGenerate_of_not_submit env req w hns]
  simp [hns, hx, routeRun, redisSet, hset, World.emit]

theorem three_minutes : 3 * Minute = 180 * Second := by decide

/-- Dropping the entries of one key does not change what is found at another. -/
theorem find_filter_other (cache : List CacheEntry) (k p : String) (hk : k ≠ p) :
    (cache.filter (fun e => e.key ≠ p)).find? (fun e => e.key = k) =
      cache.find? (fun e => e.key = k) := by
  induction cache with
  | nil => rfl
  | cons c cs ih =>
    by_cases hcp : c.key = p
    · have hck : ¬ c.key = k := fun h => hk (h.symm.trans hcp)
      have h1 : (c :: cs).filter (fun e => e.key ≠ p) = cs.filter (fun e => e.key ≠ p) := by
        rw [List.filter_cons]
        simp [hcp]
      have h2 : (c :: cs).find? (fun e => e.key = k) = cs.find? (fun e => e.key = k) := by
        rw [List.find?_cons]
        simp [hck]
      rw [h1, h2, ih]
    · have h1 : (c :: cs).filter (fun e => e.key ≠ p) =
          c :: cs.filter (fun e => e.key ≠ p) := by
        rw [List.filter_cons]
        simp [hcp]
      rw [h1, List.find?_cons, List.find?_cons, ih]

/-- C2 (amended): for every request of type "run" whose execution RPC
succeeds with output o and whose cache write succeeds, `executeAndStore`
leaves at key PID the value o with a time-to-live of 3 minutes = 180 s,
exactly one entry has that key, and the entries of every other key are as
before; no submission is created. Processing the same request again (same
output, cache write succeeding again) leaves the cache exactly as after the
first processing. -/
theorem run_output_cached (env env2 : Env) (req : CodeExecutionRequest) (w : World)
    (o : String) (hrun : req.ReqType = "run")
    (hx : env.ExecuteCode req.Language req.Code = .ok o)
    (hset : env.redisSetErr req.PID o (3 * Minute) = none)
    (hx2 : env2.ExecuteCode req.Language req.Code = .ok o)
    (hset2 : env2.redisSetErr req.PID o (3 * Minute) = none) :
    redisGet (executeAndStore env req w).2.redis req.PID = some (o, 180 * Second) ∧
    ((executeAndStore env req w).2.redis.filter (fun e => e.key = req.PID)).length = 1 ∧
    (∀ k, k ≠ req.PID →
      (executeAndStore env req w).2.redis.filter (fun e => e.key = k) =
        w.redis.filter (fun e => e.key = k)) ∧
    (∀ k, k ≠ req.PID →
      redisGet (executeAndStore env req w).2.redis k = redisGet w.redis k) ∧
    (executeAndStore env req w).2.SubmissionCollection = w.SubmissionCollection ∧
    (executeAndStore env2 req (executeAndStore env req w).2).2.redis =
      (executeAndStore env req w).2.redis := by
  rw [executeAndStore_run_ok env2 req _ o hrun hx2 hset2]
  rw [executeAndStore_run_ok env req w o hrun hx hset]
  have hfilter : ∀ k, k ≠ req.PID →
      List.filter (fun e : CacheEntry => decide (e.key = k))
        (List.filter (fun e => decide (e.key ≠ req.PID)) w.redis) =
      List.filter (fun e => decide (e.key = k)) w.redis := by
    intro k hk
    rw [List.filter_filter]
    apply List.filter_congr
    intro e _
    by_cases hek : e.key = k
    · simp [hek, hk]
    · simp [hek]
  refine ⟨?_, ?_, ?_, ?_, rfl, ?_⟩
  · simp [redisGet, List.find?, three_minutes]
  · simp [List.filter_cons, List.filter_filter]
  · intro k hk
    simp only [List.filter_cons]
    have : ¬ req.PID = k := fun h => hk h.symm
    simp only [this, decide_False, Bool.false_eq_true, if_false]
    exact hfilter k hk
  · intro k hk
    have : ¬ req.PID = k := fun h => hk h.symm
    simp only [redisGet, List.find?, this, decide_False]
    rw [find_filter_other w.redis k req.PID hk]
  · simp [List.filter_cons, List.filter_filter]

/-- Witness of C2 on the sample run request. -/
theorem run_output_cached_witness :
    runReq.ReqType = "run" ∧
    okEnv.ExecuteCode runReq.Language runReq.Code = .ok passOutput ∧
    okEnv.redisSetErr runReq.PID passOutput (3 * Minute) = none ∧
    redisGet (executeAndStore okEnv runReq sampleWorld).2.redis runReq.PID =
      some (passOutput, 180 * Second) :=
  ⟨rfl, rfl, rfl,
    (run_output_cached okEnv okEnv runReq sampleWorld passOutput rfl rfl rfl rfl rfl).1⟩

/-- C2 as stated fails: the request is of type "run" and the execution RPC
succeeds, but the cache write fails (the error is only logged), so no entry
for the PID is in the cache afterwards. -/
theorem cache_failure_leaves_no_entry :
    runReq.ReqType = "run" ∧
    redisDownEnv.ExecuteCode runReq.Language runReq.Code = .ok passOutput ∧
    (executeAndStore redisDownEnv runReq sampleWorld).1 = Outcome.returned ∧
    redisGet (executeAndStore redisDownEnv runReq sampleWorld).2.redis runReq.PID = none ∧
    (executeAndStore redisDownEnv runReq sampleWorld).2.trace =
      [Event.executeCode "python" "print(1)",
       Event.redisSet "abc123" passOutput (3 * Minute),
       Event.println "Stored output in Redis",
       Event.logPrintf "Error storing output in Redis: %v"
         (Err.lib "dial tcp: connection refused")] := by
  refine ⟨rfl, rfl, rfl, rfl, rfl⟩

/-! ## `executeAndStore`: the submit route -/

theorem routeSubmit_of_bool (env : Env) (req : CodeExecutionRequest) (output : String)
    (w : World) (b : Bool) (hs : mapIndex (env.jsonUnmarshal output).1 "status" = Dyn.bool b) :
    routeSubmit env req output w =
      (Outcome.returned,
        (InsertSubmissionsAndUpdateCodeQue env req.QueID output req b
          ((match (env.jsonUnmarshal output).2 with
            | some e => (w.emit (Event.jsonUnmarshal output)).emit
                (Event.logPrintf "Error unmarshaling JSON: %v" e)
            | none => w.emit (Event.jsonUnmarshal output)).emit
            (Event.println "Storing submission in MongoDB"))).2) := by
  unfold routeSubmit
  simp only [hs]

theorem routeSubmit_of_not_bool (env : Env) (req : CodeExecutionRequest) (output : String)
    (w : World) (hs : ∀ b, mapIndex (env.jsonUnmarshal output).1 "status" ≠ Dyn.bool b) :
    (routeSubmit env req output w).1 =
        Outcome.panicked "interface conversion: interface {} is not bool" ∧
    (routeSubmit env req output w).2.SubmissionCollection = w.SubmissionCollection ∧
    (routeSubmit env req output w).2.CodeQueCollection = w.CodeQueCollection := by
  unfold routeSubmit
  cases hm : mapIndex (env.jsonUnmarshal output).1 "status" with
  | bool b => exact absurd hm (hs b)
  | nil => cases (env.jsonUnmarshal output).2 <;> simp
  | other t => cases (env.jsonUnmarshal output).2 <;> simp

/-- A submit request that reaches routing: lookup and RPC succeeded. -/
theorem executeAndStore_submit_routed (env : Env) (req : CodeExecutionRequest) (w : World)
    (cq : CodeQue) (output : String) (hsub : req.ReqType = "submit")
    (hl : FindOne env w.CodeQueCollection req.QueID req.Language = .ok cq)
    (hx : env.ExecuteCode req.Language (env.GenerateCode req.Language req.Code cq).1 =
      .ok output) :
    executeAndStore env req w =
      routeSubmit env { req with Code := (env.GenerateCode req.Language req.Code cq).1 } output
        (((w.emit (Event.findOne req.QueID ("templates." ++ req.Language))).emit
          (Event.generateCode req.Language req.Code)).emit
          (Event.executeCode req.Language (env.GenerateCode req.Language req.Code cq).1)) := by
  unfold executeAndStore
  rw [resolveAndGenerate_of_lookup_ok env req w cq hsub hl]
  simp [hsub, hx]

/-- C1 (amended): for every request of type "submit" for which template
lookup, code generation, the execution RPC, the submission insert and the
aggregate update all succeed (the store reports no error and a problem
document whose `_id` is the object id of QueID exists) and whose decoded
output carries a boolean status b, `executeAndStore` returns normally,
appends exactly one Submission, holding the PID, email and language of the
request, the code returned by `GenerateCode` and the engine output, and adds
exactly 1 to exactly one counter of that problem: `submissions.correct` when b
is true, `submissions.wrong` when b is false. The other counter, the counters
of every other problem and the cache are unchanged. -/
theorem submit_persists_and_counts (env : Env) (req : CodeExecutionRequest) (w : World)
    (cq : CodeQue) (code output : String) (b : Bool) (oid : ObjectID)
    (hsub : req.ReqType = "submit")
    (hl : FindOne env w.CodeQueCollection req.QueID req.Language = .ok cq)
    (hg : env.GenerateCode req.Language req.Code cq = (code, none))
    (hx : env.ExecuteCode req.Language code = .ok output)
    (hs : mapIndex (env.jsonUnmarshal output).1 "status" = Dyn.bool b)
    (hid : ObjectIDFromHex req.QueID = .ok oid)
    (hins : env.insertOneErr
      { PID := req.PID, QueID := oid, Email := req.Email, Language := req.Language,
        Code := code, Output := output, SubmittedAT := env.now, Runtime := "0",
        Memory := "0" } = none)
    (hupd : env.updateByIDErr oid (if b then "submissions.correct" else "submissions.wrong") =
      none)
    (hex : ∃ d ∈ w.CodeQueCollection, d.ID = oid) :
    (executeAndStore env req w).1 = Outcome.returned ∧
    (executeAndStore env req w).2.SubmissionCollection =
      w.SubmissionCollection ++
        [{ PID := req.PID, QueID := oid, Email := req.Email, Language := req.Language,
           Code := code, Output := output, SubmittedAT := env.now, Runtime := "0",
           Memory := "0" }] ∧
    correctOf (executeAndStore env req w).2.CodeQueCollection oid =
      correctOf w.CodeQueCollection oid + (if b then 1 else 0) ∧
    wrongOf (executeAndStore env req w).2.CodeQueCollection oid =
      wrongOf w.CodeQueCollection oid + (if b then 0 else 1) ∧
    (∀ id2, id2 ≠ oid →
      correctOf (executeAndStore env req w).2.CodeQueCollection id2 =
        correctOf w.CodeQueCollection id2 ∧
      wrongOf (executeAndStore env req w).2.CodeQueCollection id2 =
        wrongOf w.CodeQueCollection id2) ∧
    (executeAndStore env req w).2.redis = w.redis := by
  have hcode : (env.GenerateCode req.Language req.Code cq).1 = code := by rw [hg]
  rw [executeAndStore_submit_routed env req w cq output hsub hl (by rw [hcode]; exact hx)]
  rw [routeSubmit_of_bool _ _ _ _ b hs, hcode]
  generalize hw0 : ((match (env.jsonUnmarshal output).2 with
      | some e => ((((w.emit (Event.findOne req.QueID ("templates." ++ req.Language))).emit
          (Event.generateCode req.Language req.Code)).emit
          (Event.executeCode req.Language code)).emit (Event.jsonUnmarshal output)).emit
          (Event.logPrintf "Error unmarshaling JSON: %v" e)
      | none => (((w.emit (Event.findOne req.QueID ("templates." ++ req.Language))).emit
          (Event.generateCode req.Language req.Code)).emit
          (Event.executeCode req.Language code)).emit (Event.jsonUnmarshal output)).emit
      (Event.println "Storing submission in MongoDB")) = w0
  have hw0s : w0.SubmissionCollection = w.SubmissionCollection ∧
      w0.CodeQueCollection = w.CodeQueCollection ∧ w0.redis = w.redis := by
    subst hw0
    cases (env.jsonUnmarshal output).2 <;> simp
  obtain ⟨hs0, hc0, hr0⟩ := hw0s
  rw [Insert_of_insert_ok env req.QueID output { req with Code := code } b w0 oid hid hins]
  simp only []
  generalize hw1 : ({ (w0.emit (Event.insertOne (newSubmission env oid output
      { req with Code := code }))) with
      SubmissionCollection := w0.SubmissionCollection ++
        [newSubmission env oid output { req with Code := code }] } : World) = w1
  have hw1c : w1.CodeQueCollection = w.CodeQueCollection := by
    subst hw1
    simpa using hc0
  have hw1s : w1.SubmissionCollection = w.SubmissionCollection ++
      [newSubmission env oid output { req with Code := code }] := by
    subst hw1
    simp [hs0]
  have hw1r : w1.redis = w.redis := by
    subst hw1
    simpa using hr0
  have hex1 : ∃ d ∈ w1.CodeQueCollection, d.ID = oid := by rw [hw1c]; exact hex
  obtain ⟨hcor, hwr, _⟩ := UpdateCodeQue_counters env oid b w1 hupd hex1
  obtain ⟨hfs, hfr⟩ := UpdateCodeQue_frame env oid b w1
  refine ⟨trivial, ?_, ?_, ?_, ?_, ?_⟩
  · rw [hfs, hw1s]
    rfl
  · rw [hcor, hw1c]
  · rw [hwr, hw1c]
  · intro id2 hne
    have := UpdateCodeQue_other env oid id2 b w1 hne
    rw [this.1, this.2, hw1c]
    exact ⟨rfl, rfl⟩
  · rw [hfr, hw1r]

/-- Witness of C1 (amended) on the sample submit request. -/
theorem submit_persists_and_counts_witness :
    submitReq.ReqType = "submit" ∧
    FindOne okEnv sampleWorld.CodeQueCollection submitReq.QueID submitReq.Language =
      .ok ⟨[("python", "import sys\n")]⟩ ∧
    ObjectIDFromHex submitReq.QueID = .ok sampleID ∧
    (executeAndStore okEnv submitReq sampleWorld).2.SubmissionCollection =
      [{ PID := "abc123", QueID := sampleID, Email := "a@b.c", Language := "python",
         Code := "import sys\nprint(1)", Output := passOutput, SubmittedAT := 1700000000,
         Runtime := "0", Memory := "0" }] ∧
    correctOf (executeAndStore okEnv submitReq sampleWorld).2.CodeQueCollection sampleID =
      4 + 1 ∧
    wrongOf (executeAndStore okEnv submitReq sampleWorld).2.CodeQueCollection sampleID =
      2 + 0 :=
  have h := submit_persists_and_counts okEnv submitReq sampleWorld
    ⟨[("python", "import sys\n")]⟩ "import sys\nprint(1)" passOutput true sampleID
    rfl rfl rfl rfl rfl sampleHex_decodes rfl rfl ⟨sampleDoc, by simp [sampleWorld], rfl⟩
  ⟨rfl, rfl, sampleHex_decodes, h.2.1, h.2.2.1, h.2.2.2.1⟩

/-- C1 as stated fails. For the sample submit request template lookup, code
generation, the execution RPC and the submission insert all succeed and the
output carries a true status, yet (a) when the store fails the aggregate
update, and (b) when the update matches no document, one Submission is
appended and neither counter of any problem changes; and the appended
Submission holds the generated code, not the code of the request. -/
theorem update_failure_leaves_counters :
    submitReq.ReqType = "submit" ∧
    FindOne updateDownEnv sampleWorld.CodeQueCollection submitReq.QueID submitReq.Language =
      .ok ⟨[("python", "import sys\n")]⟩ ∧
    updateDownEnv.GenerateCode "python" "print(1)" ⟨[("python", "import sys\n")]⟩ =
      ("import sys\nprint(1)", none) ∧
    updateDownEnv.ExecuteCode "python" "import sys\nprint(1)" = .ok passOutput ∧
    mapIndex (updateDownEnv.jsonUnmarshal passOutput).1 "status" = Dyn.bool true ∧
    (∀ doc, updateDownEnv.insertOneErr doc = none) ∧
    (executeAndStore updateDownEnv submitReq sampleWorld).2.SubmissionCollection =
      [{ PID := "abc123", QueID := sampleID, Email := "a@b.c", Language := "python",
         Code := "import sys\nprint(1)", Output := passOutput, SubmittedAT := 1700000000,
         Runtime := "0", Memory := "0" }] ∧
    "import sys\nprint(1)" ≠ submitReq.Code ∧
    (executeAndStore updateDownEnv submitReq sampleWorld).2.CodeQueCollection =
      sampleWorld.CodeQueCollection ∧
    FindOne okEnv mismatchWorld.CodeQueCollection submitReq.QueID submitReq.Language =
      .ok ⟨[("python", "import sys\n")]⟩ ∧
    (executeAndStore okEnv submitReq mismatchWorld).2.SubmissionCollection.length = 1 ∧
    (executeAndStore okEnv submitReq mismatchWorld).2.CodeQueCollection =
      mismatchWorld.CodeQueCollection := by
  refine ⟨rfl, rfl, rfl, rfl, rfl, fun _ => rfl, ?_, by decide, ?_, rfl, ?_, ?_⟩
  · rfl
  · rfl
  · rfl
  · rfl

/-! ## Malformed engine output and failed code generation -/

/-- Whenever a submit request reaches routing with a `status` that is not a
bool (decode failure, missing key, other type), `executeAndStore` panics; no
Submission is created and the problem collection is unchanged. -/
theorem executeAndStore_malformed_panics (env : Env) (req : CodeExecutionRequest) (w : World)
    (cq : CodeQue) (output : String) (hsub : req.ReqType = "submit")
    (hl : FindOne env w.CodeQueCollection req.QueID req.Language = .ok cq)
    (hx : env.ExecuteCode req.Language (env.GenerateCode req.Language req.Code cq).1 =
      .ok output)
    (hs : ∀ b, mapIndex (env.jsonUnmarshal output).1 "status" ≠ Dyn.bool b) :
    (executeAndStore env req w).1 =
      Outcome.panicked "interface conversion: interface {} is not bool" ∧
    (executeAndStore env req w).2.SubmissionCollection = w.SubmissionCollection ∧
    (executeAndStore env req w).2.CodeQueCollection = w.CodeQueCollection := by
  rw [executeAndStore_submit_routed env req w cq output hsub hl hx]
  obtain ⟨h1, h2, h3⟩ := routeSubmit_of_not_bool env
    { req with Code := (env.GenerateCode req.Language req.Code cq).1 } output
    (((w.emit (Event.findOne req.QueID ("templates." ++ req.Language))).emit
      (Event.generateCode req.Language req.Code)).emit
      (Event.executeCode req.Language (env.GenerateCode req.Language req.Code cq).1)) hs
  exact ⟨h1, by simpa using h2, by simpa using h3⟩

/-- C4, evaluated: for the sample submit request, when the engine output is
not JSON, when it is an object without `status`, and when `status` is a
string, `executeAndStore` ends in a panic (the unchecked type assertion of
line 137), not on an error path; in the first case the decode error had been
logged and execution went on. No Submission is created and the counters are
unchanged. -/
theorem malformed_output_panics :
    (executeAndStore garbageEnv submitReq sampleWorld).1 =
      Outcome.panicked "interface conversion: interface {} is not bool" ∧
    (executeAndStore garbageEnv submitReq sampleWorld).2.trace =
      [Event.findOne sampleHex "templates.python",
       Event.generateCode "python" "print(1)",
       Event.executeCode "python" "import sys\nprint(1)",
       Event.jsonUnmarshal "Traceback (most recent call last)",
       Event.logPrintf "Error unmarshaling JSON: %v"
         (Err.lib "invalid character T looking for beginning of value"),
       Event.println "Storing submission in MongoDB"] ∧
    (executeAndStore garbageEnv submitReq sampleWorld).2.SubmissionCollection = [] ∧
    (executeAndStore garbageEnv submitReq sampleWorld).2.CodeQueCollection = [sampleDoc] ∧
    (executeAndStore noStatusEnv submitReq sampleWorld).1 =
      Outcome.panicked "interface conversion: interface {} is not bool" ∧
    (executeAndStore stringStatusEnv submitReq sampleWorld).1 =
      Outcome.panicked "interface conversion: interface {} is not bool" := by
  refine ⟨rfl, rfl, rfl, rfl, rfl, rfl⟩

/-- C5, evaluated: for the sample submit request, when `GenerateCode` returns
an error (and the empty string), `executeAndStore` still calls the execution
RPC, with the empty code, inserts a Submission holding the empty code and
increments `submissions.correct`. -/
theorem generation_error_not_checked :
    (genFailEnv.GenerateCode "python" "print(1)" ⟨[("python", "import sys\n")]⟩).2 =
      some (Err.lib "unsupported language") ∧
    (executeAndStore genFailEnv submitReq sampleWorld).1 = Outcome.returned ∧
    Event.executeCode "python" "" ∈ (executeAndStore genFailEnv submitReq sampleWorld).2.trace ∧
    (executeAndStore genFailEnv submitReq sampleWorld).2.SubmissionCollection =
      [{ PID := "abc123", QueID := sampleID, Email := "a@b.c", Language := "python",
         Code := "", Output := passOutput, SubmittedAT := 1700000000,
         Runtime := "0", Memory := "0" }] ∧
    correctOf (executeAndStore genFailEnv submitReq sampleWorld).2.CodeQueCollection sampleID =
      correctOf sampleWorld.CodeQueCollection sampleID + 1 := by
  refine ⟨rfl, rfl, ?_, rfl, rfl⟩
  have ht : (executeAndStore genFailEnv submitReq sampleWorld).2.trace =
      [Event.findOne sampleHex "templates.python",
       Event.generateCode "python" "print(1)",
       Event.executeCode "python" "",
       Event.jsonUnmarshal passOutput,
       Event.println "Storing submission in MongoDB",
       Event.insertOne
         { PID := "abc123", QueID := sampleID, Email := "a@b.c", Language := "python",
           Code := "", Output := passOutput, SubmittedAT := 1700000000,
           Runtime := "0", Memory := "0" },
       Event.updateByID sampleID "submissions.correct"] := rfl
  rw [ht]
  simp

/-! ## Object ids that are not well formed -/

theorem hexDecode_ok_digits (l : List Char) :
    ∀ bs, hexDecode l = .ok bs → ∀ c ∈ l, (hexVal c).isSome = true := by
  induction l using hexDecode.induct with
  | case1 => intro bs _ c hc; simp at hc
  | case2 a => intro bs h; simp [hexDecode] at h
  | case3 a b rest x y h1 h2 bs0 hrest ih =>
    intro bs _ c hc
    rcases List.mem_cons.mp hc with rfl | hc
    · simp [*]
    · rcases List.mem_cons.mp hc with rfl | hc
      · simp [*]
      · exact ih bs0 hrest c hc
  | case4 a b rest x y hx hy e hrest _ =>
    intro bs h
    simp [hexDecode, hx, hy, hrest] at h
  | case5 a b rest hno =>
    intro bs h
    unfold hexDecode at h
    split at h
    · rename_i x y hx hy
      exact absurd hy (by intro hy; exact hno x y hx hy)
    · simp at h

/-- An id that is not 24 hexadecimal digits is rejected by `ObjectIDFromHex`. -/
theorem ObjectIDFromHex_rejects (s : String) (hbad : ¬ isHexObjectID s) :
    ∃ e, ObjectIDFromHex s = .error e := by
  unfold ObjectIDFromHex
  by_cases hlen : s.utf8ByteSize = 24
  · simp only [hlen, ne_eq, not_true_eq_false, if_false]
    cases hd : hexDecode s.data with
    | error e => exact ⟨e, rfl⟩
    | ok bs => exact absurd ⟨hlen, hexDecode_ok_digits s.data bs hd⟩ hbad
  · exact ⟨Err.lib "the provided hex string is not a valid ObjectID", by simp [hlen]⟩

/-- C10: for every request of type "submit" whose QueID is not a well-formed
object id (24 hexadecimal digits), `InsertSubmissionsAndUpdateCodeQue` returns
the error of `ObjectIDFromHex` and leaves the world, trace included, exactly
as it was (no store is touched); `executeAndStore` changes neither the
submissions, nor the problem collection, nor the cache, whatever the
collaborators do; and when template lookup (by `problemId` = the raw QueID)
and the execution RPC succeed and the decoded output carries a boolean status,
`executeAndStore` returns normally having made only the lookup, generation,
RPC and decode calls and one print: the error is neither logged nor returned. -/
theorem invalid_queId_no_result (env : Env) (req : CodeExecutionRequest) (w : World)
    (hsub : req.ReqType = "submit") (hbad : ¬ isHexObjectID req.QueID) :
    (∃ e, ObjectIDFromHex req.QueID = .error e ∧
      ∀ output r status w0,
        InsertSubmissionsAndUpdateCodeQue env req.QueID output r status w0 = (some e, w0)) ∧
    ((executeAndStore env req w).2.SubmissionCollection = w.SubmissionCollection ∧
      (executeAndStore env req w).2.CodeQueCollection = w.CodeQueCollection ∧
      (executeAndStore env req w).2.redis = w.redis) ∧
    (∀ cq output data b,
      FindOne env w.CodeQueCollection req.QueID req.Language = .ok cq →
      env.ExecuteCode req.Language (env.GenerateCode req.Language req.Code cq).1 = .ok output →
      env.jsonUnmarshal output = (data, none) →
      mapIndex data "status" = Dyn.bool b →
      executeAndStore env req w =
        (Outcome.returned,
          { w with trace := w.trace ++
            [Event.findOne req.QueID ("templates." ++ req.Language),
             Event.generateCode req.Language req.Code,
             Event.executeCode req.Language (env.GenerateCode req.Language req.Code cq).1,
             Event.jsonUnmarshal output,
             Event.println "Storing submission in MongoDB"] })) := by
  obtain ⟨e, he⟩ := ObjectIDFromHex_rejects req.QueID hbad
  refine ⟨⟨e, he, fun output r status w0 => Insert_of_bad_hex env _ output r status w0 e he⟩,
    ?_, ?_⟩
  · cases hl : FindOne env w.CodeQueCollection req.QueID req.Language with
    | error e1 =>
      unfold executeAndStore
      rw [resolveAndGenerate_of_lookup_err env req w e1 hsub hl]
      simp
    | ok cq =>
      cases hx : env.ExecuteCode req.Language (env.GenerateCode req.Language req.Code cq).1 with
      | error e2 =>
        unfold executeAndStore
        rw [resolveAndGenerate_of_lookup_ok env req w cq hsub hl]
        simp [hx]
      | ok output =>
        rw [executeAndStore_submit_routed env req w cq output hsub hl hx]
        unfold routeSubmit
        cases hm : mapIndex (env.jsonUnmarshal output).1 "status" <;>
          cases (env.jsonUnmarshal output).2 <;>
          simp [Insert_of_bad_hex _ _ _ _ _ _ e he]
  · intro cq output data b hl hx hj hm
    rw [executeAndStore_submit_routed env req w cq output hsub hl hx]
    have hm2 : mapIndex (env.jsonUnmarshal output).1 "status" = Dyn.bool b := by rw [hj]; exact hm
    rw [routeSubmit_of_bool _ _ _ _ b hm2, Insert_of_bad_hex _ _ _ _ _ _ e he]
    simp [hj, World.emit]

/-- Witness of C10: lookup and RPC succeed for the `problemId` "two-sum", the
status is a bool, and nothing is stored. -/
theorem invalid_queId_no_result_witness :
    shortIdReq.ReqType = "submit" ∧ ¬ isHexObjectID shortIdReq.QueID ∧
    FindOne okEnv slugWorld.CodeQueCollection shortIdReq.QueID shortIdReq.Language =
      .ok ⟨[("python", "import sys\n")]⟩ ∧
    (executeAndStore okEnv shortIdReq slugWorld).2.SubmissionCollection =
      slugWorld.SubmissionCollection ∧
    (executeAndStore okEnv shortIdReq slugWorld).2.CodeQueCollection =
      slugWorld.CodeQueCollection ∧
    (executeAndStore okEnv shortIdReq slugWorld).2.redis = slugWorld.redis ∧
    executeAndStore okEnv shortIdReq slugWorld =
      (Outcome.returned,
        { slugWorld with trace := slugWorld.trace ++
          [Event.findOne "two-sum" ("templates." ++ "python"),
           Event.generateCode "python" "print(1)",
           Event.executeCode "python" "import sys\nprint(1)",
           Event.jsonUnmarshal passOutput,
           Event.println "Storing submission in MongoDB"] }) :=
  have hbad : ¬ isHexObjectID shortIdReq.QueID := fun h => absurd h.1 (by decide)
  have h := invalid_queId_no_result okEnv shortIdReq slugWorld rfl hbad
  ⟨rfl, hbad, rfl, h.2.1.1, h.2.1.2.1, h.2.1.2.2,
    h.2.2 ⟨[("python", "import sys\n")]⟩ passOutput (some [("status", Dyn.bool true)]) true
      rfl rfl rfl rfl⟩

/-! ## `processMessages` -/

theorem processMessage_sent (unmarshal : String → Except Err CodeExecutionRequest)
    (st : Ingest) (r : Except Err Message) :
    (processMessage unmarshal st r).sent = st.sent ++ (forwarded unmarshal r).toList := by
  unfold processMessage forwarded
  cases r with
  | error e => simp
  | ok msg => cases h : unmarshal msg.Value <;> simp [h]

/-- C8: for every finite sequence of read results and every decoder,
`processMessages` sends on the channel, after what was already sent, exactly
the decoded requests of the messages whose payload decodes, in arrival order;
a payload that does not decode (or a failed read) contributes nothing, and
processing a sequence followed by another is processing the first and then
the second, so no message stops the ones after it. -/
theorem processMessages_forwards (unmarshal : String → Except Err CodeExecutionRequest)
    (rs rs2 : List (Except Err Message)) (st : Ingest) :
    (processMessages unmarshal rs st).sent = st.sent ++ rs.filterMap (forwarded unmarshal) ∧
    processMessages unmarshal (rs ++ rs2) st =
      processMessages unmarshal rs2 (processMessages unmarshal rs st) ∧
    (∀ msg e, unmarshal msg.Value = .error e →
      (processMessages unmarshal (Except.ok msg :: rs) st).sent =
        (processMessages unmarshal rs st).sent) := by
  have hsent : ∀ (l : List (Except Err Message)) (s : Ingest),
      (processMessages unmarshal l s).sent = s.sent ++ l.filterMap (forwarded unmarshal) := by
    intro l
    induction l with
    | nil => intro s; simp [processMessages]
    | cons r rest ih =>
      intro s
      unfold processMessages
      rw [ih, processMessage_sent]
      cases hf : forwarded unmarshal r <;> simp [List.filterMap_cons, hf]
  have happ : ∀ (l : List (Except Err Message)) (s : Ingest),
      processMessages unmarshal (l ++ rs2) s =
        processMessages unmarshal rs2 (processMessages unmarshal l s) := by
    intro l
    induction l with
    | nil => intro s; rfl
    | cons r rest ih =>
      intro s
      simp only [List.cons_append, processMessages]
      exact ih _
  refine ⟨hsent rs st, happ rs st, ?_⟩
  intro msg e he
  rw [hsent, hsent]
  simp [List.filterMap_cons, forwarded, he]

/-! ## Increments in any order -/

/-- C9 (amended): for every problem that exists (a document with that `_id`),
every list of status values containing c true and w false entries and every
permutation of it, when every update operation on that problem is carried
out by the store without error, applying `UpdateCodeQue` once per entry in
the order of the permutation increases `submissions.correct` by exactly c and
`submissions.wrong` by exactly w. -/
theorem updates_any_order_count (env : Env) (queID : ObjectID) (w : World)
    (l l2 : List Bool) (hperm : l2.Perm l)
    (hex : ∃ d ∈ w.CodeQueCollection, d.ID = queID)
    (hok : ∀ field, env.updateByIDErr queID field = none) :
    correctOf (applyUpdates env queID l2 w).CodeQueCollection queID =
      correctOf w.CodeQueCollection queID + l.count true ∧
    wrongOf (applyUpdates env queID l2 w).CodeQueCollection queID =
      wrongOf w.CodeQueCollection queID + l.count false := by
  obtain ⟨hc, hw⟩ := applyUpdates_counters env queID hok l2 w hex
  rw [hc, hw, hperm.count_eq, hperm.count_eq]
  exact ⟨rfl, rfl⟩

/-- Witness of C9 (amended): three updates on the sample problem, in another
order. -/
theorem updates_any_order_count_witness :
    [false, true, true].Perm [true, false, true] ∧
    (∃ d ∈ sampleWorld.CodeQueCollection, d.ID = sampleID) ∧
    (∀ field, okEnv.updateByIDErr sampleID field = none) ∧
    correctOf (applyUpdates okEnv sampleID [false, true, true] sampleWorld).CodeQueCollection
      sampleID = correctOf sampleWorld.CodeQueCollection sampleID +
        [true, false, true].count true ∧
    wrongOf (applyUpdates okEnv sampleID [false, true, true] sampleWorld).CodeQueCollection
      sampleID = wrongOf sampleWorld.CodeQueCollection sampleID +
        [true, false, true].count false :=
  have hp : [false, true, true].Perm [true, false, true] := by decide
  have hex : ∃ d ∈ sampleWorld.CodeQueCollection, d.ID = sampleID :=
    ⟨sampleDoc, by simp [sampleWorld], rfl⟩
  ⟨hp, hex, fun _ => rfl,
    updates_any_order_count okEnv sampleID sampleWorld [true, false, true]
      [false, true, true] hp hex (fun _ => rfl)⟩

/-- C9 as stated fails: the sample problem exists and the list holds one true
status, but the store fails the update, `UpdateCodeQue` returns that error,
and `submissions.correct` is not increased. -/
theorem store_failure_loses_increment :
    (∃ d ∈ sampleWorld.CodeQueCollection, d.ID = sampleID) ∧
    [true].count true = 1 ∧
    (UpdateCodeQue updateDownEnv sampleID true sampleWorld).1 =
      some (Err.lib "server selection timeout") ∧
    correctOf (applyUpdates updateDownEnv sampleID [true] sampleWorld).CodeQueCollection
      sampleID = correctOf sampleWorld.CodeQueCollection sampleID ∧
    correctOf (applyUpdates updateDownEnv sampleID [true] sampleWorld).CodeQueCollection
      sampleID ≠ correctOf sampleWorld.CodeQueCollection sampleID + [true].count true := by
  refine ⟨⟨sampleDoc, by simp [sampleWorld], rfl⟩, rfl, rfl, rfl, ?_⟩
  have h : correctOf (applyUpdates updateDownEnv sampleID [true] sampleWorld).CodeQueCollection
      sampleID = 4 := rfl
  have h2 : correctOf sampleWorld.CodeQueCollection sampleID = 4 := rfl
  rw [h, h2]
  decide

/-- Witness of C8: a payload that does not decode, between two that do, is
dropped and the loop goes on. -/
theorem processMessages_forwards_witness :
    (processMessages sampleUnmarshal
      [.ok ⟨"run-abc123"⟩, .ok ⟨"not json"⟩, .error (Err.lib "EOF"), .ok ⟨"run-abc123"⟩]
      ⟨[], []⟩).sent = [runReq, runReq] ∧
    sampleUnmarshal "not json" = .error (Err.lib "unexpected end of JSON input") ∧
    (processMessages sampleUnmarshal [.ok ⟨"not json"⟩, .ok ⟨"run-abc123"⟩] ⟨[], []⟩).sent =
      (processMessages sampleUnmarshal [.ok ⟨"run-abc123"⟩] ⟨[], []⟩).sent :=
  have h1 := (processMessages_forwards sampleUnmarshal
    [.ok ⟨"run-abc123"⟩, .ok ⟨"not json"⟩, .error (Err.lib "EOF"), .ok ⟨"run-abc123"⟩] []
    ⟨[], []⟩).1
  have h2 := (processMessages_forwards sampleUnmarshal [.ok ⟨"run-abc123"⟩] []
    ⟨[], []⟩).2.2 ⟨"not json"⟩ (Err.lib "unexpected end of JSON input") rfl
  ⟨h1, rfl, h2⟩

end CodeRealm
